import Mathlib

/-!
Shallow embedding of `src/amethyst_assets/src/reload.rs` (the asset
hot-reload subsystem of the amethyst repository) and proofs of the
specification's claims about it.

Modelling conventions:
- `Instant` values and modification timestamps are `Nat` (whole seconds /
  opaque monotone markers); `last.elapsed().as_secs()` at current time
  `now` is `now - last` (Nat subtraction; the monotone clock guarantees
  `now ≥ last`).
- `u8` is `Fin 256`; `u64` values are `Nat` (only compared, never
  overflowed); the Rust cast `interval as u64` is `u64_of_u8`.
- `Result<T, BoxedErr>` is `Except String T` with the error payload opaque.
- `Arc<Source>` sharing and `String`/field clones are pure values, so a
  clone is the value itself; the `Clone for SingleFile` impl is mirrored
  field by field.
-/

set_option autoImplicit false

namespace AmethystAssets

/-- The Rust cast `(n : u8) as u64`: a widening cast, total on values
below 2^64. -/
def u64_of_u8 (n : Fin 256) : Nat := n.val % 2 ^ 64

/-- The `Source` collaborator: `fn modified(&self, path: &str) ->
Result<u64, BoxedErr>` is the only capability the reload code uses. -/
structure Source where
  modified : String → Except String Nat

/-- Private enum `HotReloadStrategyInner` from reload.rs, with the three
variants `Every { interval: u8, last: Instant, do_reload: bool }`,
`Trigger { triggered: bool }` and `Never`. -/
inductive HotReloadStrategyInner where
  | Every (interval : Fin 256) (last : Nat) (do_reload : Bool)
  | Trigger (triggered : Bool)
  | Never
deriving DecidableEq

/-- Public wrapper `struct HotReloadStrategy { inner: HotReloadStrategyInner }`. -/
structure HotReloadStrategy where
  inner : HotReloadStrategyInner
deriving DecidableEq

/-- `HotReloadStrategy::every(n: u8)`: periodic reload every `n` seconds;
`last` is `Instant::now()` at construction time, passed explicitly as `now`. -/
def HotReloadStrategy.every (n : Fin 256) (now : Nat) : HotReloadStrategy :=
  ⟨HotReloadStrategyInner.Every n now false⟩

/-- `HotReloadStrategy::when_triggered()`. -/
def HotReloadStrategy.when_triggered : HotReloadStrategy :=
  ⟨HotReloadStrategyInner.Trigger false⟩

/-- `HotReloadStrategy::never()`. -/
def HotReloadStrategy.never : HotReloadStrategy :=
  ⟨HotReloadStrategyInner.Never⟩

/-- `impl Default for HotReloadStrategy`: `every(1)` at the current instant. -/
def HotReloadStrategy.default (now : Nat) : HotReloadStrategy :=
  HotReloadStrategy.every 1 now

/-- `HotReloadStrategy::trigger(&mut self)`: sets `triggered` on the
`Trigger` variant, otherwise leaves the state untouched (the `if let`
falls through). -/
def HotReloadStrategy.trigger (s : HotReloadStrategy) : HotReloadStrategy :=
  match s.inner with
  | HotReloadStrategyInner.Trigger _ => ⟨HotReloadStrategyInner.Trigger true⟩
  | _ => s

/-- `HotReloadStrategy::needs_reload(&self)`: reads the flag of the
current variant; `Never` is always `false`. -/
def HotReloadStrategy.needs_reload (s : HotReloadStrategy) : Bool :=
  match s.inner with
  | HotReloadStrategyInner.Every _ _ do_reload => do_reload
  | HotReloadStrategyInner.Trigger triggered => triggered
  | HotReloadStrategyInner.Never => false

/-- `HotReloadSystem::run`: the tick-advance step. `Trigger` clears the
flag unconditionally; `Every` compares `last.elapsed().as_secs()` with
`interval as u64` and either marks a due tick (resetting `last` to
`Instant::now()`, i.e. `now`) or clears the flag; `Never` is untouched. -/
def HotReloadSystem.run (now : Nat) (s : HotReloadStrategy) : HotReloadStrategy :=
  match s.inner with
  | HotReloadStrategyInner.Trigger _ => ⟨HotReloadStrategyInner.Trigger false⟩
  | HotReloadStrategyInner.Every interval last _ =>
      if now - last > u64_of_u8 interval
      then ⟨HotReloadStrategyInner.Every interval now true⟩
      else ⟨HotReloadStrategyInner.Every interval last false⟩
  | HotReloadStrategyInner.Never => s

/-- The import-format collaborator. A `Format<A>` instance for the
purposes of reload.rs is its static `NAME` and its
`import(path, source, options, create_reload) -> Result<FormatValue<A>, BoxedErr>`
method; `FOpt` stands for `F::Options` and `V` for `FormatValue A`,
both opaque here. -/
structure Format (FOpt V : Type) where
  NAME : String
  imp : String → Source → FOpt → Bool → Except String V

/-- `struct SingleFile<A, F>` from reload.rs: stored format instance,
modification timestamp at last load, format options, path, and shared
source. -/
structure SingleFile (FOpt V : Type) where
  format : Format FOpt V
  modified : Nat
  options : FOpt
  path : String
  source : Source

/-- `SingleFile::new`. -/
def SingleFile.new {FOpt V : Type} (format : Format FOpt V) (modified : Nat)
    (options : FOpt) (path : String) (source : Source) : SingleFile FOpt V :=
  ⟨format, modified, options, path, source⟩

/-- `Result::unwrap_or`. -/
def unwrapOr {E A : Type} (r : Except E A) (d : A) : A :=
  match r with
  | Except.ok v => v
  | Except.error _ => d

/-- `Reload::needs_reload` for `SingleFile`:
`self.modified != 0 && (self.source.modified(&self.path).unwrap_or(0) > self.modified)`. -/
def SingleFile.needs_reload {FOpt V : Type} (sf : SingleFile FOpt V) : Bool :=
  sf.modified != 0 && decide (unwrapOr (sf.source.modified sf.path) 0 > sf.modified)

/-- `Reload::reload` for `SingleFile`: destructures self (dropping
`modified`) and calls `format.import(path, source, options, true)`. -/
def SingleFile.reload {FOpt V : Type} (sf : SingleFile FOpt V) : Except String V :=
  sf.format.imp sf.path sf.source sf.options true

/-- `Reload::name` for `SingleFile`: `self.path.clone()`. -/
def SingleFile.name {FOpt V : Type} (sf : SingleFile FOpt V) : String :=
  sf.path

/-- `Reload::format` for `SingleFile`: the static `F::NAME` (named
`format_name` here because `format` is already the field). -/
def SingleFile.format_name {FOpt V : Type} (sf : SingleFile FOpt V) : String :=
  sf.format.NAME

/-- `impl Clone for SingleFile`, field by field as in the source:
`format.clone()`, `modified` (Copy), `options.clone()`, `path.clone()`,
`source.clone()` (an `Arc` clone, sharing the same underlying source). -/
def SingleFile.clone {FOpt V : Type} (sf : SingleFile FOpt V) : SingleFile FOpt V :=
  { format := sf.format
    modified := sf.modified
    options := sf.options
    path := sf.path
    source := sf.source }

/-- The blanket `ReloadClone::cloned` impl: `Box::new(self.clone())`,
giving `Clone for Box<Reload<A>>` — duplication through the abstract
boxed capability, delegated to the concrete variant's `clone`. -/
def SingleFile.cloned {FOpt V : Type} (sf : SingleFile FOpt V) : SingleFile FOpt V :=
  sf.clone

/-- The `World` state touched by `HotReloadBundle::build`:
`Loader::set_hot_reload(true)` and `add_resource(strategy)`. -/
structure World where
  loader_hot_reload : Bool
  strategy : Option HotReloadStrategy

/-- A `DispatcherBuilder` as the list of registered systems: each entry
is the system's name together with the names of the systems it is
declared to depend on (run after). -/
abbrev DispatcherBuilder : Type := List (String × List String)

/-- `DispatcherBuilder::add(system, name, dependencies)`. -/
def DispatcherBuilder.add (d : DispatcherBuilder) (name : String)
    (deps : List String) : DispatcherBuilder :=
  d ++ [(name, deps)]

/-- A declared ordering constraint in the builder: system `name` lists
`other` among its dependencies, so it is constrained to run after it. -/
def DispatcherBuilder.declaredAfter (d : DispatcherBuilder)
    (name other : String) : Prop :=
  ∃ e ∈ d, e.1 = name ∧ other ∈ e.2

/-- `struct HotReloadBundle { strategy: HotReloadStrategy }`. -/
structure HotReloadBundle where
  strategy : HotReloadStrategy

/-- `HotReloadBundle::new`. -/
def HotReloadBundle.new (strategy : HotReloadStrategy) : HotReloadBundle :=
  ⟨strategy⟩

/-- `ECSBundle::build` for `HotReloadBundle`: enables hot reload on the
loader, installs the strategy resource, and adds `HotReloadSystem` under
the name "hot_reload" with an empty dependency list. -/
def HotReloadBundle.build (b : HotReloadBundle) (w : World)
    (d : DispatcherBuilder) : Except String (World × DispatcherBuilder) :=
  Except.ok
    ({ w with loader_hot_reload := true, strategy := some b.strategy },
     d.add "hot_reload" [])

/-- External events a `HotReloadStrategy` resource is subject to:
`trigger()` calls from application code and the once-per-tick
`HotReloadSystem::run` (at current instant `now`). Queries
(`needs_reload`) take `&self` and change nothing. -/
inductive StratOp where
  | arm : StratOp
  | tick (now : Nat) : StratOp
deriving DecidableEq

/-- Apply one event to the strategy state. -/
def applyOp (s : HotReloadStrategy) : StratOp → HotReloadStrategy
  | StratOp.arm => s.trigger
  | StratOp.tick now => HotReloadSystem.run now s

/-- Apply a finite sequence of events, left to right. -/
def applyOps (s : HotReloadStrategy) : List StratOp → HotReloadStrategy
  | [] => s
  | o :: os => applyOps (applyOp s o) os

/-- A trivial format instance used for concrete evaluations: its import
always succeeds with `()`. -/
def fmtU : Format Unit Unit :=
  ⟨"RON", fun _ _ _ _ => Except.ok ()⟩

/-- A source whose modification query always answers 1. -/
def srcOk1 : Source := ⟨fun _ => Except.ok 1⟩

/-- A source whose modification query always answers 7. -/
def srcOk7 : Source := ⟨fun _ => Except.ok 7⟩

/-- A source whose modification query always answers a large timestamp. -/
def srcBig : Source := ⟨fun _ => Except.ok 1000000⟩

/-- A source whose modification query always fails. -/
def srcErr : Source := ⟨fun _ => Except.error "io error"⟩

/-- A handle with `modified = 0` over a source reporting timestamp 1. -/
def sfZero : SingleFile Unit Unit := ⟨fmtU, 0, (), "mesh.ron", srcOk1⟩

/-- A handle with `modified = 0` over a source reporting a huge timestamp. -/
def sfZeroBig : SingleFile Unit Unit := ⟨fmtU, 0, (), "mesh.ron", srcBig⟩

/-- A handle with `modified = 5` over a source reporting timestamp 7. -/
def sfFive : SingleFile Unit Unit := ⟨fmtU, 5, (), "mesh.ron", srcOk7⟩

/-- A dispatcher that already holds one asset-processing system (a system
that consults `needs_reload` during the tick). -/
def dAsset : DispatcherBuilder := [("asset_processor", [])]

/-- An initial world: hot reload off, no strategy resource. -/
def w0 : World := ⟨false, none⟩

/-- A bundle carrying the `when_triggered` strategy. -/
def bundle0 : HotReloadBundle := ⟨HotReloadStrategy.when_triggered⟩

/-! ### Helper lemmas -/

theorem applyOp_never (o : StratOp) :
    applyOp HotReloadStrategy.never o = HotReloadStrategy.never := by
  cases o <;> rfl

theorem applyOps_never (ops : List StratOp) :
    applyOps HotReloadStrategy.never ops = HotReloadStrategy.never := by
  induction ops with
  | nil => rfl
  | cons o os ih =>
      show applyOps (applyOp HotReloadStrategy.never o) os = HotReloadStrategy.never
      rw [applyOp_never]
      exact ih

theorem applyOps_trigger_false (ops : List StratOp) (h : StratOp.arm ∉ ops) :
    applyOps ⟨HotReloadStrategyInner.Trigger false⟩ ops =
      ⟨HotReloadStrategyInner.Trigger false⟩ := by
  induction ops with
  | nil => rfl
  | cons o os ih =>
      have h2 : StratOp.arm ∉ os := fun hm => h (List.mem_cons_of_mem _ hm)
      cases o with
      | arm => exact absurd (List.mem_cons_self _ _) h
      | tick n => exact ih h2

theorem applyOps_trigger_true (ops : List StratOp)
    (h : ∀ n, StratOp.tick n ∉ ops) :
    applyOps ⟨HotReloadStrategyInner.Trigger true⟩ ops =
      ⟨HotReloadStrategyInner.Trigger true⟩ := by
  induction ops with
  | nil => rfl
  | cons o os ih =>
      have h2 : ∀ n, StratOp.tick n ∉ os :=
        fun n hm => h n (List.mem_cons_of_mem _ hm)
      cases o with
      | arm => exact ih h2
      | tick n => exact absurd (List.mem_cons_self _ _) (h n)

theorem u64_of_u8_exact (n : Fin 256) : u64_of_u8 n = n.val :=
  Nat.mod_eq_of_lt (lt_of_lt_of_le n.isLt (by norm_num))

/-! ### Claims -/

/-- C1: one tick-advance on the `Every` (Periodic) variant sets the due
flag and resets `last` to the current instant when the elapsed seconds
strictly exceed the interval, and otherwise clears the due flag keeping
`last`; and no other operation changes the due flag — `trigger` leaves an
`Every` state untouched (and `needs_reload` takes `&self`). -/
theorem every_tick_advance (interval : Fin 256) (last : Nat) (d : Bool)
    (now : Nat) :
    (now - last > interval.val →
      HotReloadSystem.run now ⟨HotReloadStrategyInner.Every interval last d⟩ =
        ⟨HotReloadStrategyInner.Every interval now true⟩) ∧
    (now - last ≤ interval.val →
      HotReloadSystem.run now ⟨HotReloadStrategyInner.Every interval last d⟩ =
        ⟨HotReloadStrategyInner.Every interval last false⟩) ∧
    HotReloadStrategy.trigger ⟨HotReloadStrategyInner.Every interval last d⟩ =
      ⟨HotReloadStrategyInner.Every interval last d⟩ := by
  refine ⟨fun h => ?_, fun h => ?_, rfl⟩
  · simp only [HotReloadSystem.run, u64_of_u8_exact, gt_iff_lt]
    rw [if_pos h]
  · simp only [HotReloadSystem.run, u64_of_u8_exact, gt_iff_lt]
    rw [if_neg (Nat.not_lt.mpr h)]

/-- C1 witness: with interval 2 and `last = 0`, a tick at `now = 5`
(elapsed 5 > 2) marks a due tick and resets `last`; a tick at `now = 1`
(elapsed 1 ≤ 2) clears the flag. -/
theorem every_tick_advance_witness :
    HotReloadSystem.run 5 ⟨HotReloadStrategyInner.Every 2 0 false⟩ =
      ⟨HotReloadStrategyInner.Every 2 5 true⟩ ∧
    HotReloadSystem.run 1 ⟨HotReloadStrategyInner.Every 2 0 true⟩ =
      ⟨HotReloadStrategyInner.Every 2 0 false⟩ :=
  ⟨(every_tick_advance 2 0 false 5).1 (by decide),
   (every_tick_advance 2 0 true 1).2.1 (by decide)⟩

/-- C3: the `Trigger` (Triggered) variant is a one-tick pulse:
`needs_reload` stays false from `when_triggered()` under any sequence of
events that contains no `trigger()` call; `trigger()` arms the flag;
once armed, `needs_reload` stays true under any further events up to the
next tick-advance; and the tick-advance clears the flag unconditionally. -/
theorem triggered_pulse (ops : List StratOp) (t : Bool) (now : Nat) :
    (StratOp.arm ∉ ops →
      (applyOps HotReloadStrategy.when_triggered ops).needs_reload = false) ∧
    HotReloadStrategy.trigger ⟨HotReloadStrategyInner.Trigger t⟩ =
      ⟨HotReloadStrategyInner.Trigger true⟩ ∧
    ((∀ n, StratOp.tick n ∉ ops) →
      (applyOps ⟨HotReloadStrategyInner.Trigger true⟩ ops).needs_reload = true) ∧
    HotReloadSystem.run now ⟨HotReloadStrategyInner.Trigger t⟩ =
      ⟨HotReloadStrategyInner.Trigger false⟩ := by
  refine ⟨fun h => ?_, rfl, fun h => ?_, rfl⟩
  · rw [show HotReloadStrategy.when_triggered =
          ⟨HotReloadStrategyInner.Trigger false⟩ from rfl,
        applyOps_trigger_false ops h]
    rfl
  · rw [applyOps_trigger_true ops h]
    rfl

/-- C3 witness: a tick without a preceding trigger leaves the flag false;
an armed flag survives a further trigger call (no tick in between). -/
theorem triggered_pulse_witness :
    (applyOps HotReloadStrategy.when_triggered [StratOp.tick 7]).needs_reload =
      false ∧
    (applyOps ⟨HotReloadStrategyInner.Trigger true⟩ [StratOp.arm]).needs_reload =
      true :=
  ⟨(triggered_pulse [StratOp.tick 7] false 0).1 (by decide),
   (triggered_pulse [StratOp.arm] false 0).2.2.1 (by intro n; simp)⟩

/-- C7: a strategy built with `never()` reports `needs_reload = false`
after any finite sequence of `trigger()` calls and tick-advances, in any
interleaving. -/
theorem never_stays_false (ops : List StratOp) :
    (applyOps HotReloadStrategy.never ops).needs_reload = false := by
  rw [applyOps_never]
  rfl

/-- C9: `trigger()` is a silent no-op on the `Every` and `Never`
variants, returning with the whole state unchanged; only on the
`Trigger` variant does it set the armed flag to true. -/
theorem trigger_frame (interval : Fin 256) (last : Nat) (d t : Bool) :
    HotReloadStrategy.trigger ⟨HotReloadStrategyInner.Every interval last d⟩ =
      ⟨HotReloadStrategyInner.Every interval last d⟩ ∧
    HotReloadStrategy.trigger ⟨HotReloadStrategyInner.Never⟩ =
      ⟨HotReloadStrategyInner.Never⟩ ∧
    HotReloadStrategy.trigger ⟨HotReloadStrategyInner.Trigger t⟩ =
      ⟨HotReloadStrategyInner.Trigger true⟩ :=
  ⟨rfl, rfl, rfl⟩

/-- C10: `every(n)` takes a `u8`, so the stored interval is at most 255;
construction stores exactly `n` with a fresh `last` and a cleared flag;
and the `interval as u64` widening used by the tick-advance comparison is
exact (no truncation) on every `u8` value. -/
theorem every_interval_bounded (n : Fin 256) (now : Nat) :
    n.val ≤ 255 ∧
    HotReloadStrategy.every n now =
      ⟨HotReloadStrategyInner.Every n now false⟩ ∧
    u64_of_u8 n = n.val :=
  ⟨Nat.lt_succ_iff.mp n.isLt, rfl, u64_of_u8_exact n⟩

/-- C2 counterexample: the unguarded iff "needs_reload is true iff a
fresh query returns a value strictly greater than the stored timestamp"
fails at `modified = 0`: the source answers 1 > 0 yet `needs_reload` is
false, because the code guards with `modified != 0`. -/
theorem needs_reload_iff_fails_at_zero :
    ¬ (sfZero.needs_reload = true ↔
        ∃ v, sfZero.source.modified sfZero.path = Except.ok v ∧
          sfZero.modified < v) := by
  intro hiff
  have h1 : sfZero.needs_reload = true := hiff.mpr ⟨1, rfl, by decide⟩
  have h2 : sfZero.needs_reload = false := by decide
  exact Bool.false_ne_true (h2.symm.trans h1)

/-- C2 (amended): for a handle whose stored timestamp is nonzero,
`needs_reload` is true iff a fresh query of the source for the stored
path succeeds with a value strictly greater than the stored timestamp;
a failed query yields false; the check itself never fails the caller
(it is a total `Bool`-valued function). -/
theorem needs_reload_fresh_query {FOpt V : Type} (sf : SingleFile FOpt V)
    (h : sf.modified ≠ 0) :
    (sf.needs_reload = true ↔
      ∃ v, sf.source.modified sf.path = Except.ok v ∧ sf.modified < v) ∧
    (∀ e, sf.source.modified sf.path = Except.error e →
      sf.needs_reload = false) := by
  constructor
  · cases hq : sf.source.modified sf.path with
    | ok v => simp [SingleFile.needs_reload, hq, unwrapOr, h]
    | error e => simp [SingleFile.needs_reload, hq, unwrapOr]
  · intro e he
    simp [SingleFile.needs_reload, he, unwrapOr]

/-- C2 witness: a handle with stored timestamp 5 over a source answering
7 satisfies the amended characterization. -/
theorem needs_reload_fresh_query_witness :
    (sfFive.needs_reload = true ↔
      ∃ v, sfFive.source.modified sfFive.path = Except.ok v ∧
        sfFive.modified < v) ∧
    (∀ e, sfFive.source.modified sfFive.path = Except.error e →
      sfFive.needs_reload = false) :=
  needs_reload_fresh_query sfFive (by decide)

/-- C4: a handle with stored timestamp 0 never reports needing reload,
whatever the source query returns (success with any value, or an error):
the zero timestamp disables staleness detection. -/
theorem zero_modified_disables {FOpt V : Type} (sf : SingleFile FOpt V)
    (h : sf.modified = 0) : sf.needs_reload = false := by
  simp [SingleFile.needs_reload, h]

/-- C4 witness: `modified = 0` over a source reporting a huge timestamp
still reports false. -/
theorem zero_modified_disables_witness : sfZeroBig.needs_reload = false :=
  zero_modified_disables sfZeroBig rfl

/-- C5 counterexample: building the bundle over a dispatcher that already
holds a consulting system registers "hot_reload" with an EMPTY dependency
list, so the resulting dispatcher declares no ordering constraint of
"hot_reload" after "asset_processor" — refuting the claim that the
registration carries such a constraint. -/
theorem bundle_no_ordering_constraint :
    HotReloadBundle.build bundle0 w0 dAsset =
      Except.ok
        ({ w0 with
            loader_hot_reload := true,
            strategy := some bundle0.strategy },
         [("asset_processor", []), ("hot_reload", [])]) ∧
    ¬ DispatcherBuilder.declaredAfter
        [("asset_processor", []), ("hot_reload", [])]
        "hot_reload" "asset_processor" := by
  refine ⟨rfl, ?_⟩
  rintro ⟨e, he, hname, hdep⟩
  simp only [List.mem_cons, List.not_mem_nil, or_false] at he
  rcases he with rfl | rfl
  · exact absurd hname (by decide)
  · exact (List.not_mem_nil _) hdep

/-- C5 (amended): `HotReloadBundle::build` enables hot reload on the
loader, installs the strategy as the shared resource, and appends exactly
one registration named "hot_reload" whose dependency list is empty;
running it after the consulting systems is left to the caller (the
bundle's documentation says to add it after all asset processing
systems), not enforced by a declared constraint. -/
theorem bundle_build_spec (b : HotReloadBundle) (w : World)
    (d : DispatcherBuilder) :
    HotReloadBundle.build b w d =
      Except.ok
        ({ w with loader_hot_reload := true, strategy := some b.strategy },
         d ++ [("hot_reload", [])]) ∧
    DispatcherBuilder.add d "hot_reload" [] = d ++ [("hot_reload", [])] :=
  ⟨rfl, rfl⟩

/-- C6: `reload` ignores (discards) the stored stale timestamp and
invokes the format's import with exactly the stored format, path, source
and options, with the metadata-request flag true; an import error is
propagated unchanged and an import success is returned as-is. -/
theorem reload_forwards_to_import {FOpt V : Type} (sf : SingleFile FOpt V)
    (m : Nat) (e : String) (v : V) :
    SingleFile.reload { sf with modified := m } = SingleFile.reload sf ∧
    SingleFile.reload sf = sf.format.imp sf.path sf.source sf.options true ∧
    (sf.format.imp sf.path sf.source sf.options true = Except.error e →
      SingleFile.reload sf = Except.error e) ∧
    (sf.format.imp sf.path sf.source sf.options true = Except.ok v →
      SingleFile.reload sf = Except.ok v) :=
  ⟨rfl, rfl, fun h => h, fun h => h⟩

/-- C6 witness: on the concrete handle the timestamp does not affect the
reload result, and the import's success is returned as-is. -/
theorem reload_forwards_to_import_witness :
    SingleFile.reload { sfFive with modified := 0 } =
      SingleFile.reload sfFive ∧
    SingleFile.reload sfFive = Except.ok () :=
  ⟨(reload_forwards_to_import sfFive 0 "e" ()).1,
   (reload_forwards_to_import sfFive 0 "e" ()).2.2.2 rfl⟩

/-- C8: duplicating a handle through the boxed abstract capability
(`cloned`, i.e. `Box::new(self.clone())`) yields a duplicate whose
`needs_reload`, `name` and format-name queries agree with the original,
and which carries the same format, timestamp, options, path and the same
underlying source. -/
theorem clone_preserves_queries {FOpt V : Type} (sf : SingleFile FOpt V) :
    (SingleFile.cloned sf).needs_reload = sf.needs_reload ∧
    (SingleFile.cloned sf).name = sf.name ∧
    (SingleFile.cloned sf).format_name = sf.format_name ∧
    (SingleFile.cloned sf).format = sf.format ∧
    (SingleFile.cloned sf).modified = sf.modified ∧
    (SingleFile.cloned sf).options = sf.options ∧
    (SingleFile.cloned sf).path = sf.path ∧
    (SingleFile.cloned sf).source = sf.source :=
  ⟨rfl, rfl, rfl, rfl, rfl, rfl, rfl, rfl⟩

end AmethystAssets
